import Mathlib

/-!
Verification development for `fibre_exporter.py`, the FIBRE USDT metrics
exporter. The Python source is shallowly embedded: Python `str` values are
lists of Unicode codepoints (`PyStr`), byte buffers are lists of naturals
below 256, metric mutations performed by the event handlers are recorded as
an explicit observation trace, and the HTTP handlers become pure functions
from request data to a response value.
-/

/-- A Python `str`, represented as its list of Unicode codepoints. -/
abbrev PyStr := List Nat

/-- Codepoints of a Lean string literal, used to transcribe the Python
string literals of the source. -/
def pyStr (s : String) : PyStr := s.data.map Char.toNat

/-- Codepoint of a single character. -/
def pyChar (c : Char) : Nat := c.toNat

/-- Bytes of an ASCII Lean string literal (for ASCII text, UTF-8 bytes
coincide with codepoints). -/
def pyBytes (s : String) : List Nat := pyStr s

/-! ### UTF-8 encoding and decoding

`bytes.decode("utf-8", errors="ignore")` and `str.encode("utf-8")` from the
source are modelled byte-exactly for well-formed input. For `errors="ignore"`
an invalid lead byte is skipped; after a failed multi-byte sequence the lead
byte is skipped and scanning resumes at the next byte, which drops exactly
the same bytes as CPython drops (stray continuation bytes are themselves
invalid lead bytes and are skipped one by one). -/

/-- UTF-8 encoding of one codepoint (`str.encode("utf-8")`, per scalar). -/
def utf8EncodeCp (n : Nat) : List Nat :=
  if n < 128 then [n]
  else if n < 2048 then [192 + n / 64, 128 + n % 64]
  else if n < 65536 then [224 + n / 4096, 128 + n / 64 % 64, 128 + n % 64]
  else [240 + n / 262144, 128 + n / 4096 % 64, 128 + n / 64 % 64, 128 + n % 64]

/-- UTF-8 encoding of a Python string. -/
def utf8Encode (s : PyStr) : List Nat := (s.map utf8EncodeCp).flatten

/-- Lower bound for the second byte of a 3-byte sequence (excludes overlong
forms and surrogates, as CPython does). -/
def cont2lo (b : Nat) : Nat := if b = 224 then 160 else 128

/-- Upper bound for the second byte of a 3-byte sequence. -/
def cont2hi (b : Nat) : Nat := if b = 237 then 159 else 191

/-- Lower bound for the second byte of a 4-byte sequence. -/
def cont3lo (b : Nat) : Nat := if b = 240 then 144 else 128

/-- Upper bound for the second byte of a 4-byte sequence. -/
def cont3hi (b : Nat) : Nat := if b = 244 then 143 else 191

/-- `bytes.decode("utf-8", errors="ignore")`: undecodable byte sequences are
dropped, the rest of the buffer still decodes. -/
def utf8DecodeIgnore : List Nat → List Nat
  | [] => []
  | b :: l =>
    if b < 128 then b :: utf8DecodeIgnore l
    else if 194 ≤ b ∧ b ≤ 223 then
      match l with
      | b2 :: l2 =>
        if 128 ≤ b2 ∧ b2 ≤ 191 then
          ((b - 192) * 64 + (b2 - 128)) :: utf8DecodeIgnore l2
        else utf8DecodeIgnore (b2 :: l2)
      | [] => []
    else if 224 ≤ b ∧ b ≤ 239 then
      match l with
      | b2 :: b3 :: l3 =>
        if (cont2lo b ≤ b2 ∧ b2 ≤ cont2hi b) ∧ 128 ≤ b3 ∧ b3 ≤ 191 then
          ((b - 224) * 4096 + (b2 - 128) * 64 + (b3 - 128)) :: utf8DecodeIgnore l3
        else utf8DecodeIgnore (b2 :: b3 :: l3)
      | [b2] => utf8DecodeIgnore [b2]
      | [] => []
    else if 240 ≤ b ∧ b ≤ 244 then
      match l with
      | b2 :: b3 :: b4 :: l4 =>
        if (cont3lo b ≤ b2 ∧ b2 ≤ cont3hi b) ∧
            (128 ≤ b3 ∧ b3 ≤ 191) ∧ 128 ≤ b4 ∧ b4 ≤ 191 then
          ((b - 240) * 262144 + (b2 - 128) * 4096 + (b3 - 128) * 64 + (b4 - 128)) ::
            utf8DecodeIgnore l4
        else utf8DecodeIgnore (b2 :: b3 :: b4 :: l4)
      | [b2, b3] => utf8DecodeIgnore [b2, b3]
      | [b2] => utf8DecodeIgnore [b2]
      | [] => []
    else utf8DecodeIgnore l

/-- `bytes.decode("utf-8")` (strict): any invalid sequence raises, modelled
as `none`. -/
def utf8DecodeStrict : List Nat → Option (List Nat)
  | [] => some []
  | b :: l =>
    if b < 128 then (utf8DecodeStrict l).map (b :: ·)
    else if 194 ≤ b ∧ b ≤ 223 then
      match l with
      | b2 :: l2 =>
        if 128 ≤ b2 ∧ b2 ≤ 191 then
          (utf8DecodeStrict l2).map (((b - 192) * 64 + (b2 - 128)) :: ·)
        else none
      | [] => none
    else if 224 ≤ b ∧ b ≤ 239 then
      match l with
      | b2 :: b3 :: l3 =>
        if (cont2lo b ≤ b2 ∧ b2 ≤ cont2hi b) ∧ 128 ≤ b3 ∧ b3 ≤ 191 then
          (utf8DecodeStrict l3).map
            (((b - 224) * 4096 + (b2 - 128) * 64 + (b3 - 128)) :: ·)
        else none
      | _ => none
    else if 240 ≤ b ∧ b ≤ 244 then
      match l with
      | b2 :: b3 :: b4 :: l4 =>
        if (cont3lo b ≤ b2 ∧ b2 ≤ cont3hi b) ∧
            (128 ≤ b3 ∧ b3 ≤ 191) ∧ 128 ≤ b4 ∧ b4 ≤ 191 then
          (utf8DecodeStrict l4).map
            (((b - 240) * 262144 + (b2 - 128) * 4096 + (b3 - 128) * 64 + (b4 - 128)) :: ·)
        else none
      | _ => none
    else none

/-- `str.rstrip("\x00")`: remove trailing NUL codepoints. -/
def rstripNul (s : PyStr) : PyStr := (s.reverse.dropWhile (fun c => c == 0)).reverse

/-- Decoding of a fixed-capacity `char[]` field of the BPF `event_t` struct
(source lines 600-601, `event.winner.decode("utf-8", errors="ignore")
.rstrip("\x00")`). Reading the ctypes `c_char * n` structure field returns
the buffer's bytes truncated at the first NUL byte (ctypes char-array
`.value` semantics), modelled by `takeWhile`; the Python code then decodes
with `errors="ignore"` and strips trailing NULs. -/
def fieldStr (buf : List Nat) : PyStr :=
  rstripNul (utf8DecodeIgnore (buf.takeWhile (fun b => b != 0)))

/-! ### Classifier (source lines 603-608) -/

/-- Python `str.startswith`, as a prefix test on codepoint lists. -/
def pyStartsWith : PyStr → PyStr → Bool
  | [], _ => true
  | _ :: _, [] => false
  | a :: as', b :: bs => a == b && pyStartsWith as' bs

/-- Mechanism classification of a winner identifier: the `if
winner_str.startswith("F") ... elif ... else` chain of
`_handle_block_delivery`. -/
def mechanismOf (s : PyStr) : PyStr :=
  if pyStartsWith (pyStr "F") s then pyStr "fibre_udp"
  else if pyStartsWith (pyStr "B") s then pyStr "bip152_cmpct"
  else pyStr "other"

example : mechanismOf (pyStr "FIBRE-1") = pyStr "fibre_udp" := by decide
example : mechanismOf (pyStr "B-peer") = pyStr "bip152_cmpct" := by decide
example : mechanismOf (pyStr "") = pyStr "other" := by decide
example : fieldStr (pyBytes "Fx" ++ [0, 0, 7]) = pyStr "Fx" := by decide
example : fieldStr [255, 255] = pyStr "" := by decide

/-! ### Event records and the metrics observation trace

A raw perf-buffer record is the BPF `struct event_t` (source lines 341-351):
unsigned 32-bit fields become `Nat`, signed 64/32-bit fields become `Int`,
and the two fixed-capacity `char[]` buffers become byte lists. The event
handlers of `FibreExporter` mutate Prometheus metrics; each mutation is
recorded as one `Obs` in an observation trace, so a handler is a pure
function from a record to the list of metric operations it performs. -/

/-- The BPF `struct event_t` as delivered to `_handle_event`. -/
structure EventRec where
  type : Nat
  duration_us : Int
  chunks_used : Nat
  chunks_recvd : Nat
  height : Int
  udp_ns : Int
  cmpct_ns : Int
  winner : List Nat
  peer : List Nat
  deriving DecidableEq

/-- One Prometheus metric operation: `Counter.inc`, `Histogram.observe` or
`Gauge.set`. -/
inductive MetricOp where
  | inc (delta : ℚ)
  | observe (value : ℚ)
  | set (value : ℚ)
  deriving DecidableEq

/-- One recorded metric mutation: metric name, label pairs, operation. -/
structure Obs where
  metric : PyStr
  labels : List (PyStr × PyStr)
  op : MetricOp
  deriving DecidableEq

/-- The numeric argument of an observation's operation. -/
def Obs.val (o : Obs) : ℚ :=
  match o.op with
  | .inc d => d
  | .observe v => v
  | .set v => v

/-- Value of one label of an observation. -/
def Obs.label (o : Obs) (k : PyStr) : Option PyStr :=
  (o.labels.find? (fun p => p.1 == k)).map (fun p => p.2)

/-- Exporter configuration fields used by the event handlers. -/
structure Config where
  node_name : PyStr
  deriving DecidableEq

/-- Metric name of `FibreMetrics.blocks_reconstructed`. -/
def mBlocksReconstructed : PyStr := pyStr "fibre_blocks_reconstructed_total"

/-- Metric name of `FibreMetrics.block_reconstruction_time`. -/
def mReconstructionTime : PyStr := pyStr "fibre_block_reconstruction_duration_seconds"

/-- Metric name of `FibreMetrics.chunks_used`. -/
def mChunksUsed : PyStr := pyStr "fibre_block_chunks_used"

/-- Metric name of `FibreMetrics.chunks_received`. -/
def mChunksReceived : PyStr := pyStr "fibre_chunks_received_total"

/-- Metric name of `FibreMetrics.chunks_used_total`. -/
def mChunksUsedTotal : PyStr := pyStr "fibre_chunks_used_total"

/-- Metric name of `FibreMetrics.blocks_sent`. -/
def mBlocksSent : PyStr := pyStr "fibre_blocks_sent_total"

/-- Metric name of `FibreMetrics.block_deliveries`. -/
def mBlockDeliveries : PyStr := pyStr "fibre_block_deliveries_total"

/-- Metric name of `FibreMetrics.last_block_height`. -/
def mLastBlockHeight : PyStr := pyStr "fibre_last_block_height"

/-- Metric name of `FibreMetrics.blocks_connected`. -/
def mBlocksConnected : PyStr := pyStr "bitcoin_blocks_connected_total"

/-- Metric name of `FibreMetrics.block_connection_time`. -/
def mBlockConnectionTime : PyStr := pyStr "bitcoin_block_connection_duration_seconds"

/-- Metric name of `FibreMetrics.block_tx_count`. -/
def mBlockTxCount : PyStr := pyStr "bitcoin_block_tx_count"

/-- Metric name of `FibreMetrics.exporter_events_total`. -/
def mEventsTotal : PyStr := pyStr "fibre_exporter_events_processed_total"

/-- Metric name of `FibreMetrics.exporter_errors_total`. -/
def mErrorsTotal : PyStr := pyStr "fibre_exporter_errors_total"

/-- `EVENT_TYPE_NAMES.get(event.type, "unknown")` (source lines 535-540). -/
def eventTypeName (t : Nat) : PyStr :=
  if t = 1 then pyStr "block_reconstructed"
  else if t = 2 then pyStr "block_send_start"
  else if t = 3 then pyStr "block_delivery"
  else if t = 10 then pyStr "block_connected"
  else pyStr "unknown"

/-- `FibreExporter._handle_block_reconstructed` (source lines 573-588). -/
def handleBlockReconstructed (cfg : Config) (e : EventRec) : List Obs :=
  [ { metric := mBlocksReconstructed, labels := [(pyStr "node", cfg.node_name)],
      op := .inc 1 },
    { metric := mReconstructionTime, labels := [(pyStr "node", cfg.node_name)],
      op := .observe ((e.duration_us : ℚ) / 1000000) },
    { metric := mChunksUsed, labels := [(pyStr "node", cfg.node_name)],
      op := .observe (e.chunks_used : ℚ) },
    { metric := mChunksUsedTotal, labels := [(pyStr "node", cfg.node_name)],
      op := .inc (e.chunks_used : ℚ) },
    { metric := mChunksReceived, labels := [(pyStr "node", cfg.node_name)],
      op := .inc (e.chunks_recvd : ℚ) } ]

/-- `FibreExporter._handle_block_send_start` (source lines 590-595). -/
def handleBlockSendStart (cfg : Config) (_e : EventRec) : List Obs :=
  [ { metric := mBlocksSent, labels := [(pyStr "node", cfg.node_name)],
      op := .inc 1 } ]

/-- `FibreExporter._handle_block_delivery` (source lines 597-611). -/
def handleBlockDelivery (cfg : Config) (e : EventRec) : List Obs :=
  let winner_str := fieldStr e.winner
  let peer_str := fieldStr e.peer
  let mechanism := mechanismOf winner_str
  [ { metric := mBlockDeliveries,
      labels := [(pyStr "node", cfg.node_name), (pyStr "mechanism", mechanism),
                 (pyStr "peer", peer_str)],
      op := .inc 1 },
    { metric := mLastBlockHeight, labels := [(pyStr "node", cfg.node_name)],
      op := .set (e.height : ℚ) } ]

/-- `FibreExporter._handle_block_connected` (source lines 618-639). The
`duration_us` struct field is reused for `connection_time_ns` and the
`udp_ns` struct field for `tx_count`. -/
def handleBlockConnected (cfg : Config) (e : EventRec) : List Obs :=
  [ { metric := mBlocksConnected, labels := [(pyStr "node", cfg.node_name)],
      op := .inc 1 },
    { metric := mLastBlockHeight, labels := [(pyStr "node", cfg.node_name)],
      op := .set (e.height : ℚ) } ]
  ++ (if e.duration_us > 0 then
        [ { metric := mBlockConnectionTime, labels := [(pyStr "node", cfg.node_name)],
            op := .observe ((e.duration_us : ℚ) / 1000000000) } ]
      else [])
  ++ (if e.udp_ns > 0 then
        [ { metric := mBlockTxCount, labels := [(pyStr "node", cfg.node_name)],
            op := .observe (e.udp_ns : ℚ) } ]
      else [])

/-- `FibreExporter._handle_event` (source lines 553-571): counts the record
under its event-type name, then dispatches on the type tag. A record with an
unrecognized tag matches no branch, so its whole effect is the single
processed-events increment. -/
def handleEvent (cfg : Config) (e : EventRec) : List Obs :=
  { metric := mEventsTotal,
    labels := [(pyStr "event_type", eventTypeName e.type)],
    op := MetricOp.inc 1 } ::
  (if e.type = 1 then handleBlockReconstructed cfg e
   else if e.type = 2 then handleBlockSendStart cfg e
   else if e.type = 3 then handleBlockDelivery cfg e
   else if e.type = 10 then handleBlockConnected cfg e
   else [])

/-- Observation trace of a sequence of records drained from the perf
buffer: each is processed to completion by `_handle_event`, in order. -/
def procTrace (cfg : Config) (es : List EventRec) : List Obs :=
  (es.map (handleEvent cfg)).flatten

/-- Is this an increment of the block-deliveries counter? -/
def isDeliveryObs (o : Obs) : Bool := o.metric == mBlockDeliveries

/-- Mechanism label of the first block-deliveries observation of a trace. -/
def deliveryMechLabel (t : List Obs) : Option PyStr :=
  (t.find? isDeliveryObs).bind (fun o => o.label (pyStr "mechanism"))

/-- Peer label of the first block-deliveries observation of a trace. -/
def deliveryPeerLabel (t : List Obs) : Option PyStr :=
  (t.find? isDeliveryObs).bind (fun o => o.label (pyStr "peer"))

/-- Does the observation carry the value 30 ms, in any of the unit
conventions the exporter uses (seconds, milliseconds, microseconds,
nanoseconds)? A 30 ms margin measurement would have to appear as such an
observation. -/
def isThirtyMsValue (o : Obs) : Bool :=
  decide (o.val = mkRat 3 100) || decide (o.val = 30) ||
  decide (o.val = 30000) || decide (o.val = 30000000)

example : (mkRat 3 100 : ℚ) = 3 / 100 := by norm_num [Rat.mkRat_eq_div]

/-- A configuration with the default node name. -/
def cfg0 : Config := { node_name := pyStr "localhost" }

/-- All-zero record, as produced by `struct event_t event = {}`. -/
def baseRec : EventRec :=
  { type := 0, duration_us := 0, chunks_used := 0, chunks_recvd := 0,
    height := 0, udp_ns := 0, cmpct_ns := 0,
    winner := List.replicate 24 0, peer := List.replicate 48 0 }

/-- A `DeliveryWinner` for height 100 whose winner identifier starts with
`F` (the `EVENT_BLOCK_DELIVERY` record, tag 3). -/
def winnerRec : EventRec :=
  { baseRec with
    type := 3, height := 100,
    winner := pyBytes "FIBRE-peer" ++ List.replicate 14 0,
    peer := pyBytes "peer1" ++ List.replicate 43 0 }

/-- A `DeliveryTiming(height=100, a=50ms, b=80ms)` rendered as a raw
record: the `event_t` struct carries the two latencies in its `udp_ns` and
`cmpct_ns` fields, but the exporter defines no event tag for a
delivery-timing event, so the record necessarily carries an unrecognized
tag (4 is used here). -/
def timingRec : EventRec :=
  { baseRec with
    type := 4, height := 100,
    udp_ns := 50000000, cmpct_ns := 80000000 }

/-- A record with the unrecognized type tag 7. -/
def unknownRec : EventRec := { baseRec with type := 7 }

/-- A delivery record whose peer identifier starts with `G`. -/
def gPeerRec : EventRec :=
  { baseRec with
    type := 3,
    winner := pyBytes "Fw" ++ List.replicate 22 0,
    peer := pyBytes "Gp" ++ List.replicate 46 0 }

/-- C1 counterexample: the claim asserts that processing
`DeliveryWinner(height=100, "F...")` and `DeliveryTiming(height=100,
a=50ms, b=80ms)` in either order emits exactly one derived margin
measurement equal to 30 ms. The exporter computes no margins: in both
processing orders the trace contains zero observations whose value is
30 ms in any unit, so the count is 0, not 1. -/
theorem c1_claim_false_no_margin :
    (procTrace cfg0 [winnerRec, timingRec]).filter isThirtyMsValue = [] ∧
    (procTrace cfg0 [timingRec, winnerRec]).filter isThirtyMsValue = [] := by
  decide

/-- C1 (amended): the code keeps no pending-join state and emits no margin
measurements. Processing the winner record and the timing-carrying record
in either order yields the same multiset of observations: exactly one
block-deliveries increment, attributed to mechanism `fibre_udp`, a
last-block-height gauge set to 100, per-record processed-event counts, and
no observation valued 30 ms in any unit. -/
theorem c1_delivery_processing_amended :
    (procTrace cfg0 [winnerRec, timingRec]).Perm
      (procTrace cfg0 [timingRec, winnerRec]) ∧
    ((procTrace cfg0 [winnerRec, timingRec]).filter isDeliveryObs).length = 1 ∧
    deliveryMechLabel (procTrace cfg0 [winnerRec, timingRec]) =
      some (pyStr "fibre_udp") ∧
    ((procTrace cfg0 [winnerRec, timingRec]).filter
        (fun o => o.metric == mLastBlockHeight)) =
      [ { metric := mLastBlockHeight, labels := [(pyStr "node", pyStr "localhost")],
          op := .set 100 } ] ∧
    (procTrace cfg0 [winnerRec, timingRec]).filter isThirtyMsValue = [] ∧
    (procTrace cfg0 [timingRec, winnerRec]).filter isThirtyMsValue = [] := by
  refine ⟨?_, by decide, by decide, by decide, by decide, by decide⟩
  show (handleEvent cfg0 winnerRec ++ (handleEvent cfg0 timingRec ++ [])).Perm
    (handleEvent cfg0 timingRec ++ (handleEvent cfg0 winnerRec ++ []))
  simpa using List.perm_append_comm

/-- C2 counterexample: the claim asserts the classification function is
applied identically to delivery-winner identifiers and to peer
identifiers. For a delivery record with peer identifier `Gp`, the emitted
peer label is the raw string `Gp`, while the classifier maps `Gp` to
`other`: the peer identifier is not passed through the classifier at all. -/
theorem c2_claim_false_peer_not_classified :
    deliveryPeerLabel (handleEvent cfg0 gPeerRec) = some (pyStr "Gp") ∧
    mechanismOf (pyStr "Gp") = pyStr "other" ∧
    pyStr "Gp" ≠ pyStr "other" := by
  decide

/-- `pyStartsWith` with a single-character prefix tests the first character. -/
theorem pyStartsWith_single (a c : Nat) (s : PyStr) :
    pyStartsWith [a] (c :: s) = (a == c) := by
  simp [pyStartsWith]

/-- C2 (amended): classification is a pure, total, deterministic function of
the identifier string: first character `F` maps to `fibre_udp`, first
character `B` to `bip152_cmpct`, every other string (including the empty
string) to `other`. It is applied to the delivery-winner identifier; the
peer identifier is not classified but is used verbatim as the peer label. -/
theorem c2_classifier_amended :
    (∀ c s, mechanismOf (c :: s) =
      if c = pyChar 'F' then pyStr "fibre_udp"
      else if c = pyChar 'B' then pyStr "bip152_cmpct"
      else pyStr "other") ∧
    mechanismOf [] = pyStr "other" ∧
    (∀ cfg e,
      deliveryMechLabel (handleBlockDelivery cfg e) =
        some (mechanismOf (fieldStr e.winner)) ∧
      deliveryPeerLabel (handleBlockDelivery cfg e) =
        some (fieldStr e.peer)) := by
  refine ⟨?_, by decide, ?_⟩
  · intro c s
    have hF : pyStr "F" = [pyChar 'F'] := by decide
    have hB : pyStr "B" = [pyChar 'B'] := by decide
    rw [mechanismOf, hF, hB, pyStartsWith_single, pyStartsWith_single]
    by_cases h1 : c = pyChar 'F'
    · simp [h1]
    · have e1 : (pyChar 'F' == c) = false := beq_eq_false_iff_ne.mpr (Ne.symm h1)
      by_cases h2 : c = pyChar 'B'
      · rw [e1, h2]
        decide
      · have e2 : (pyChar 'B' == c) = false := beq_eq_false_iff_ne.mpr (Ne.symm h2)
        simp [e1, e2, h1, h2]
  · intro cfg e
    have hnm : (pyStr "node" == pyStr "mechanism") = false := by decide
    have hnp : (pyStr "node" == pyStr "peer") = false := by decide
    have hmp : (pyStr "mechanism" == pyStr "peer") = false := by decide
    have hmm : (pyStr "mechanism" == pyStr "mechanism") = true := by decide
    have hpp : (pyStr "peer" == pyStr "peer") = true := by decide
    have hdd : (mBlockDeliveries == mBlockDeliveries) = true := by decide
    constructor <;>
      simp [handleBlockDelivery, deliveryMechLabel, deliveryPeerLabel,
            isDeliveryObs, Obs.label, List.find?, hnm, hnp, hmp, hmm, hpp, hdd]

/-- C3 counterexample: the claim asserts an unrecognized-tag record is
counted as an error. Processing the tag-7 record increments no error
counter: its whole effect is one processed-events increment labeled
`unknown`, performed without any failure. -/
theorem c3_claim_false_no_error_count :
    (handleEvent cfg0 unknownRec).filter (fun o => o.metric == mErrorsTotal) = [] ∧
    handleEvent cfg0 unknownRec =
      [ { metric := mEventsTotal,
          labels := [(pyStr "event_type", pyStr "unknown")],
          op := .inc 1 } ] := by
  decide

/-- C3 (amended): a record whose type tag is none of the recognized tags
(1, 2, 3, 10) is not coerced into any event variant and triggers no
handler: its entire effect is a single increment of the processed-events
counter under the event-type label `unknown`; no error counter is
incremented and no decode failure occurs. -/
theorem c3_unknown_tag_amended (cfg : Config) (e : EventRec)
    (h1 : e.type ≠ 1) (h2 : e.type ≠ 2) (h3 : e.type ≠ 3) (h10 : e.type ≠ 10) :
    handleEvent cfg e =
      [ { metric := mEventsTotal,
          labels := [(pyStr "event_type", pyStr "unknown")],
          op := .inc 1 } ] := by
  simp [handleEvent, eventTypeName, h1, h2, h3, h10]

/-- Witness for the amended C3 theorem at the concrete tag 9. -/
theorem c3_unknown_tag_amended_witness :
    handleEvent cfg0 { baseRec with type := 9 } =
      [ { metric := mEventsTotal,
          labels := [(pyStr "event_type", pyStr "unknown")],
          op := .inc 1 } ] :=
  c3_unknown_tag_amended cfg0 { baseRec with type := 9 }
    (by decide) (by decide) (by decide) (by decide)

/-- Bytes after the first NUL are discarded by the ctypes field read. -/
theorem takeWhile_append_nul (pre suf : List Nat) (h : (0 : Nat) ∉ pre) :
    (pre ++ 0 :: suf).takeWhile (fun b => b != 0) = pre := by
  induction pre with
  | nil => simp [List.takeWhile_cons]
  | cons a t ih =>
    have ha : a ≠ 0 := fun h0 => h (h0 ▸ List.mem_cons_self a t)
    rw [List.cons_append, List.takeWhile_cons]
    simp [ha, ih (fun hm => h (List.mem_cons_of_mem a hm))]

/-- A NUL-free buffer is kept whole by the ctypes field read. -/
theorem takeWhile_no_nul (buf : List Nat) (h : (0 : Nat) ∉ buf) :
    buf.takeWhile (fun b => b != 0) = buf := by
  induction buf with
  | nil => rfl
  | cons a t ih =>
    have ha : a ≠ 0 := fun h0 => h (h0 ▸ List.mem_cons_self a t)
    rw [List.takeWhile_cons]
    simp [ha, ih (fun hm => h (List.mem_cons_of_mem a hm))]

/-- C4: decoding a fixed-capacity string field treats the first embedded
NUL byte as the end of the string (bytes after it never influence the
result), decodes a buffer with no NUL terminator whole (truncation to
capacity is the fixed 24/48-byte extent of the struct field itself),
maps undecodable byte sequences to nothing rather than failing — an
all-invalid buffer decodes to the empty string, an invalid byte before
valid text is dropped while the text survives — and a record whose winner
buffer is entirely undecodable is still processed (classified `other`),
not rejected. -/
theorem c4_string_field_decode :
    (∀ pre suf, (0 : Nat) ∉ pre → fieldStr (pre ++ 0 :: suf) = fieldStr pre) ∧
    (∀ buf, (0 : Nat) ∉ buf → fieldStr buf = rstripNul (utf8DecodeIgnore buf)) ∧
    fieldStr (List.replicate 24 255) = pyStr "" ∧
    fieldStr (255 :: pyBytes "FX" ++ List.replicate 21 0) = pyStr "FX" ∧
    deliveryMechLabel
        (handleEvent cfg0 { baseRec with type := 3, winner := List.replicate 24 255 }) =
      some (pyStr "other") := by
  refine ⟨?_, ?_, by decide, by decide, by decide⟩
  · intro pre suf h
    rw [fieldStr, fieldStr, takeWhile_append_nul pre suf h, takeWhile_no_nul pre h]
  · intro buf h
    rw [fieldStr, takeWhile_no_nul buf h]

/-- Witness for C4 at concrete buffers. -/
theorem c4_string_field_decode_witness :
    fieldStr (pyBytes "peerA" ++ 0 :: pyBytes "junk") = fieldStr (pyBytes "peerA") ∧
    fieldStr (pyBytes "peerA") = rstripNul (utf8DecodeIgnore (pyBytes "peerA")) :=
  ⟨c4_string_field_decode.1 (pyBytes "peerA") (pyBytes "junk") (by decide),
   c4_string_field_decode.2.1 (pyBytes "peerA") (by decide)⟩

/-- Does the observation carry a histogram observation (vs counter/gauge)? -/
def isObserve (o : Obs) : Bool :=
  match o.op with
  | .observe _ => true
  | _ => false

/-- Every histogram observation a block-connected record emits has a
strictly positive value: both `observe` calls sit behind an `if value > 0`
guard, so a sentinel is never observed as zero (or at all). -/
theorem handleBlockConnected_observe_pos (cfg : Config) (e : EventRec) :
    ∀ o ∈ handleBlockConnected cfg e, isObserve o = true → 0 < o.val := by
  intro o ho hobs
  rw [handleBlockConnected] at ho
  rcases List.mem_append.mp ho with h | h
  · rcases List.mem_append.mp h with h' | h'
    · rcases List.mem_cons.mp h' with h'' | h''
      · subst h''
        simp [isObserve] at hobs
      · simp at h''
        subst h''
        simp [isObserve] at hobs
    · by_cases hd0 : (0 : Int) < e.duration_us
      · rw [if_pos hd0] at h'
        simp at h'
        subst h'
        have hq : (0 : ℚ) < (e.duration_us : ℚ) := by exact_mod_cast hd0
        have hden : (0 : ℚ) < 1000000000 := by norm_num
        simpa [Obs.val] using div_pos hq hden
      · rw [if_neg hd0] at h'
        simp at h'
  · by_cases hu0 : (0 : Int) < e.udp_ns
    · rw [if_pos hu0] at h
      simp at h
      subst h
      have hq : (0 : ℚ) < (e.udp_ns : ℚ) := by exact_mod_cast hu0
      simpa [Obs.val] using hq
    · rw [if_neg hu0] at h
      simp at h

/-- C7: in a block-connected record, each numeric sub-field carrying the
negative "unknown" sentinel contributes no observation for that field —
independently of the other field's value, so mixed records are covered —
and no field is ever observed as zero (every emitted observation has a
strictly positive value); the record itself is still processed: the
blocks-connected counter is incremented and the height gauge set. -/
theorem c7_negative_sentinel (cfg : Config) (e : EventRec) (ht : e.type = 10) :
    (e.duration_us < 0 →
      (handleEvent cfg e).filter (fun o => o.metric == mBlockConnectionTime) = []) ∧
    (e.udp_ns < 0 →
      (handleEvent cfg e).filter (fun o => o.metric == mBlockTxCount) = []) ∧
    ((handleEvent cfg e).filter (fun o => o.metric == mBlocksConnected)).length = 1 ∧
    ((handleEvent cfg e).filter (fun o => o.metric == mLastBlockHeight)) =
      [ { metric := mLastBlockHeight, labels := [(pyStr "node", cfg.node_name)],
          op := .set (e.height : ℚ) } ] ∧
    (∀ o ∈ handleEvent cfg e, isObserve o = true → 0 < o.val) := by
  refine ⟨?_, ?_, ?_, ?_, ?_⟩
  · intro hd
    have hdd : ¬ (0 : Int) < e.duration_us := by omega
    by_cases hu0 : (0 : Int) < e.udp_ns <;>
      simp +decide [handleEvent, handleBlockConnected, eventTypeName, ht, hdd, hu0]
  · intro hu
    have huu : ¬ (0 : Int) < e.udp_ns := by omega
    by_cases hd0 : (0 : Int) < e.duration_us <;>
      simp +decide [handleEvent, handleBlockConnected, eventTypeName, ht, huu, hd0]
  · by_cases hd0 : (0 : Int) < e.duration_us <;>
      by_cases hu0 : (0 : Int) < e.udp_ns <;>
      simp +decide [handleEvent, handleBlockConnected, eventTypeName, ht, hd0, hu0]
  · by_cases hd0 : (0 : Int) < e.duration_us <;>
      by_cases hu0 : (0 : Int) < e.udp_ns <;>
      simp +decide [handleEvent, handleBlockConnected, eventTypeName, ht, hd0, hu0]
  · intro o ho hobs
    have hdisp : handleEvent cfg e =
        { metric := mEventsTotal,
          labels := [(pyStr "event_type", pyStr "block_connected")],
          op := MetricOp.inc 1 } :: handleBlockConnected cfg e := by
      simp +decide [handleEvent, eventTypeName, ht]
    rw [hdisp] at ho
    rcases List.mem_cons.mp ho with h | h
    · subst h
      simp [isObserve] at hobs
    · exact handleBlockConnected_observe_pos cfg e o h hobs

/-- A block-connected record with both sentinel fields negative. -/
def sentinelRec : EventRec :=
  { baseRec with
    type := 10, height := 5, duration_us := -1, udp_ns := -1 }

/-- A block-connected record with only the connection-time field carrying
the sentinel (tx count positive). -/
def mixedRec : EventRec :=
  { baseRec with
    type := 10, height := 6, duration_us := -1, udp_ns := 7 }

/-- Witness for C7: the mixed record exercises a single negative sentinel
alongside a positive sub-field; the both-negative record exercises the
tx-count sentinel. -/
theorem c7_negative_sentinel_witness :
    (handleEvent cfg0 mixedRec).filter (fun o => o.metric == mBlockConnectionTime) = [] ∧
    (handleEvent cfg0 sentinelRec).filter (fun o => o.metric == mBlockTxCount) = [] ∧
    ((handleEvent cfg0 mixedRec).filter (fun o => o.metric == mBlocksConnected)).length = 1 :=
  ⟨(c7_negative_sentinel cfg0 mixedRec (by decide)).1 (by decide),
   (c7_negative_sentinel cfg0 sentinelRec (by decide)).2.1 (by decide),
   (c7_negative_sentinel cfg0 mixedRec (by decide)).2.2.1⟩

/-! ### Probe lifecycle (source lines 641-675 and 718-730) -/

/-- The attach loop of `_attach_probes`: each probe is attempted inside its
own `try`/`except`, so one failure never stops the loop; the function
returns the number of successful attachments. An outcome list entry is
`true` when `usdt.enable_probe` succeeds for that probe. -/
def attachLoop : List Bool → Nat
  | [] => 0
  | ok :: rest => (if ok then 1 else 0) + attachLoop rest

/-- Continuation of `run` after `_attach_probes` returns. -/
inductive RunPhase where
  | exitNonZero (code : Nat) (upGauge : ℚ)
  | running (probesGauge : ℚ)
  deriving DecidableEq

/-- `run`, lines 718-730: zero attachments set the up gauge to 0 and exit
with status 1; otherwise the probes-attached gauge is set to the count and
the exporter keeps running. -/
def runAfterAttach (attached : Nat) : RunPhase :=
  if attached = 0 then .exitNonZero 1 0 else .running (attached : ℚ)

/-- C5: a failed attach never aborts the remaining attach attempts (the
count over a list containing a failure is the count of the two sides);
the loop counts exactly the successes; zero attachments report the up
gauge 0 and a non-zero exit; one or more attachments keep the process
running with the probes-attached gauge equal to the exact count. -/
theorem c5_probe_attach (outcomes : List Bool) :
    (∀ pre post, attachLoop (pre ++ false :: post) = attachLoop pre + attachLoop post) ∧
    attachLoop outcomes = outcomes.count true ∧
    (attachLoop outcomes = 0 →
      runAfterAttach (attachLoop outcomes) = .exitNonZero 1 0) ∧
    (1 ≤ attachLoop outcomes →
      runAfterAttach (attachLoop outcomes) = .running (attachLoop outcomes : ℚ)) := by
  refine ⟨?_, ?_, ?_, ?_⟩
  · intro pre post
    induction pre with
    | nil => simp [attachLoop]
    | cons a t ih => simp [attachLoop, ih, Nat.add_assoc]
  · induction outcomes with
    | nil => rfl
    | cons a t ih =>
      cases a <;> simp [attachLoop, ih, List.count_cons] <;> try omega
  · intro h
    simp [runAfterAttach, h]
  · intro h
    have hne : attachLoop outcomes ≠ 0 := by omega
    simp [runAfterAttach, hne]

/-- Witness for C5: 3 of 4 probes attach and the process runs with gauge 3;
0 of 4 attach and the process exits non-zero with the up gauge at 0. -/
theorem c5_probe_attach_witness :
    runAfterAttach (attachLoop [true, true, true, false]) = .running 3 ∧
    runAfterAttach (attachLoop [false, false, false, false]) = .exitNonZero 1 0 := by
  have h3 := (c5_probe_attach [true, true, true, false]).2.2.2 (by decide)
  have h0 := (c5_probe_attach [false, false, false, false]).2.2.1 (by decide)
  refine ⟨?_, h0⟩
  rw [h3]
  decide

/-! ### Health boundary (source lines 411-424) -/

/-- An HTTP response: status code, optional `WWW-Authenticate` header,
response body. -/
structure HttpResponse where
  status : Nat
  wwwAuthenticate : Option PyStr
  body : PyStr
  deriving DecidableEq

/-- `HealthCheckHandler.do_GET`: a function of the request path alone —
the handler reads no exporter state, in particular nothing about attached
probes. -/
def healthDoGet (path : PyStr) : HttpResponse :=
  if path = pyStr "/health" ∨ path = pyStr "/ready" then
    { status := 200, wwwAuthenticate := none, body := pyStr "OK" }
  else
    { status := 404, wwwAuthenticate := none, body := pyStr "Not Found" }

/-- C9: while the process is alive, the two fixed health paths return 200
with the fixed body `OK`, and any other path returns 404; the response is
a function of the path only (the handler consults no probe state). -/
theorem c9_health_endpoints (path : PyStr)
    (h1 : path ≠ pyStr "/health") (h2 : path ≠ pyStr "/ready") :
    healthDoGet (pyStr "/health") =
      { status := 200, wwwAuthenticate := none, body := pyStr "OK" } ∧
    healthDoGet (pyStr "/ready") =
      { status := 200, wwwAuthenticate := none, body := pyStr "OK" } ∧
    healthDoGet path =
      { status := 404, wwwAuthenticate := none, body := pyStr "Not Found" } := by
  refine ⟨by decide, by decide, ?_⟩
  simp [healthDoGet, h1, h2]

/-- Witness for C9 at the concrete path `/metrics`. -/
theorem c9_health_endpoints_witness :
    healthDoGet (pyStr "/health") =
      { status := 200, wwwAuthenticate := none, body := pyStr "OK" } ∧
    healthDoGet (pyStr "/metrics") =
      { status := 404, wwwAuthenticate := none, body := pyStr "Not Found" } := by
  have h := c9_health_endpoints (pyStr "/metrics") (by decide) (by decide)
  exact ⟨h.1, h.2.2⟩

/-! ### Metrics store increments (source lines 573-588; the accumulator
semantics of `prometheus_client.Counter.inc`, which adds the delta to the
value of one metric/label-set series) -/

/-- A metric series: metric name plus label set. -/
abbrev SeriesKey := PyStr × List (PyStr × PyStr)

/-- The counter part of the metrics store: current value per series. -/
abbrev CounterStore := SeriesKey → ℚ

/-- Apply one increment to the store (`Counter.inc(delta)`). -/
def applyInc (s : CounterStore) (i : SeriesKey × ℚ) : CounterStore :=
  fun k => if k = i.1 then s k + i.2 else s k

/-- Apply a finite sequence of increments in order. -/
def applyIncs (s : CounterStore) (l : List (SeriesKey × ℚ)) : CounterStore :=
  l.foldl applyInc s

/-- The value after a sequence of increments is the initial value plus the
sum of the deltas that target the series. -/
theorem applyIncs_eq_sum (l : List (SeriesKey × ℚ)) (s : CounterStore) (k : SeriesKey) :
    applyIncs s l k = s k + (l.map (fun i => if k = i.1 then i.2 else 0)).sum := by
  induction l generalizing s with
  | nil => simp [applyIncs]
  | cons a t ih =>
    show applyIncs (applyInc s a) t k = _
    rw [ih (applyInc s a)]
    simp only [applyInc, List.map_cons, List.sum_cons]
    by_cases h : k = a.1 <;> simp [h] <;> try ring

/-- C8: increments on one metric/label-set commute — applying the same
finite multiset of increments in any order yields the same final sum for
every series. -/
theorem c8_increment_commutative (s : CounterStore)
    (l₁ l₂ : List (SeriesKey × ℚ)) (hp : l₁.Perm l₂) (k : SeriesKey) :
    applyIncs s l₁ k = applyIncs s l₂ k := by
  rw [applyIncs_eq_sum, applyIncs_eq_sum]
  exact congrArg (s k + ·) ((hp.map _).sum_eq)

/-- The all-zero store. -/
def zeroStore : CounterStore := fun _ => 0

/-- The blocks-reconstructed series for the default node. -/
def seriesA : SeriesKey := (mBlocksReconstructed, [(pyStr "node", pyStr "localhost")])

/-- Witness for C8: two increments of the same series applied in both
orders give the same sum. -/
theorem c8_increment_commutative_witness :
    applyIncs zeroStore [(seriesA, 1), (seriesA, 2)] seriesA =
      applyIncs zeroStore [(seriesA, 2), (seriesA, 1)] seriesA :=
  c8_increment_commutative zeroStore _ _ (List.Perm.swap _ _ _) seriesA

/-! ### Metrics exposition boundary with basic auth (source lines 444-528)

`base64.b64decode` is modelled on well-formed standard-alphabet input; a
codepoint outside the alphabet (including any non-ASCII codepoint, which
makes the Python call raise) decodes to `none`, which like the Python
exception path yields a failed check. -/

/-- The standard base64 alphabet. -/
def b64Alphabet : List Nat :=
  pyStr "ABCDEFGHIJKLMNOPQRSTUVWXYZabcdefghijklmnopqrstuvwxyz0123456789+/"

/-- Character for a 6-bit group. -/
def b64Char (n : Nat) : Nat := b64Alphabet.getD n 0

/-- 6-bit group for a character, `none` when it is not in the alphabet. -/
def b64Index (c : Nat) : Option Nat :=
  if c ∈ b64Alphabet then some (b64Alphabet.indexOf c) else none

/-- `base64.b64encode` on a byte list; 61 is the padding character `=`. -/
def b64Encode : List Nat → List Nat
  | a :: b :: c :: rest =>
    b64Char (a / 4) :: b64Char (a % 4 * 16 + b / 16) ::
      b64Char (b % 16 * 4 + c / 64) :: b64Char (c % 64) :: b64Encode rest
  | [a, b] => [b64Char (a / 4), b64Char (a % 4 * 16 + b / 16), b64Char (b % 16 * 4), 61]
  | [a] => [b64Char (a / 4), b64Char (a % 4 * 16), 61, 61]
  | [] => []

/-- `base64.b64decode` on the codepoints of the argument string. -/
def b64Decode : List Nat → Option (List Nat)
  | [] => some []
  | c1 :: c2 :: c3 :: c4 :: rest =>
    match b64Index c1, b64Index c2 with
    | some n1, some n2 =>
      if c3 = 61 ∧ c4 = 61 ∧ rest = [] then some [n1 * 4 + n2 / 16]
      else
        match b64Index c3 with
        | some n3 =>
          if c4 = 61 ∧ rest = [] then
            some [n1 * 4 + n2 / 16, n2 % 16 * 16 + n3 / 4]
          else
            match b64Index c4, b64Decode rest with
            | some n4, some bs =>
              some ((n1 * 4 + n2 / 16) :: (n2 % 16 * 16 + n3 / 4) :: (n3 % 4 * 64 + n4) :: bs)
            | _, _ => none
        | none => none
    | _, _ => none
  | _ => some []

/-- `decoded.split(":", 1)` followed by unpacking into two names: `none`
when the string has no colon (the unpacking raises). -/
def splitOnceColon : PyStr → Option (PyStr × PyStr)
  | [] => none
  | c :: rest =>
    if c = 58 then some ([], rest)
    else
      match splitOnceColon rest with
      | some (u, p) => some (c :: u, p)
      | none => none

/-- `hmac.compare_digest` on two strings: a constant-time equality test
that raises (here `none`) when either string is not pure ASCII. -/
def compareDigest (a b : PyStr) : Option Bool :=
  if a.all (fun c => decide (c < 128)) && b.all (fun c => decide (c < 128)) then
    some (a == b)
  else none

/-- `MetricsHandler._check_auth` (source lines 451-474). A missing or empty
configured username or password (Python falsiness) disables the check; any
exception along the decode path yields `False`. -/
def checkAuth (cfgU cfgP : Option PyStr) (hdr : Option PyStr) : Bool :=
  if (cfgU.getD []).isEmpty || (cfgP.getD []).isEmpty then true
  else
    match hdr with
    | none => false
    | some h =>
      if pyStartsWith (pyStr "Basic ") h then
        match b64Decode (h.drop 6) with
        | none => false
        | some bs =>
          match utf8DecodeStrict bs with
          | none => false
          | some decoded =>
            match splitOnceColon decoded with
            | none => false
            | some (u, p) =>
              match compareDigest u (cfgU.getD []), compareDigest p (cfgP.getD []) with
              | some um, some pm => um && pm
              | _, _ => false
      else false

/-- The 401 response of `MetricsHandler._send_auth_required` (source lines
476-482), carrying the realm indicator. -/
def authRequired : HttpResponse :=
  { status := 401,
    wwwAuthenticate := some (pyStr "Basic realm=\"FIBRE Metrics\""),
    body := pyStr "Unauthorized" }

/-- `MetricsHandler.do_GET` (source lines 484-498); `payload` is the
current exposition snapshot `generate_latest(REGISTRY)`. -/
def metricsDoGet (cfgU cfgP : Option PyStr) (payload : PyStr)
    (path : PyStr) (hdr : Option PyStr) : HttpResponse :=
  if path = pyStr "/metrics" then
    if checkAuth cfgU cfgP hdr then
      { status := 200, wwwAuthenticate := none, body := payload }
    else authRequired
  else { status := 404, wwwAuthenticate := none, body := pyStr "Not Found" }

/-- A well-formed `Authorization` header with Basic credentials:
`"Basic " + base64(utf8(user + ":" + password))`. -/
def basicAuthHeader (u p : PyStr) : PyStr :=
  pyStr "Basic " ++ b64Encode (utf8Encode (u ++ 58 :: p))

/-- `ExporterConfig.has_metrics_auth` (source lines 111-113):
`bool(self.metrics_auth_username and self.metrics_auth_password)`, with
Python falsiness for `None` and for the empty string. -/
def hasMetricsAuth (cfgU cfgP : Option PyStr) : Bool :=
  !(cfgU.getD []).isEmpty && !(cfgP.getD []).isEmpty

/-- Which metrics server `run` starts (source lines 733-742). -/
inductive MetricsServerKind where
  | withAuth (u p : Option PyStr)
  | plain
  deriving DecidableEq

/-- The server-selection branch of `run`: the authenticated handler only
when `has_metrics_auth()` holds, otherwise the plain unauthenticated
`prometheus_client.start_http_server`. -/
def chooseMetricsServer (cfgU cfgP : Option PyStr) : MetricsServerKind :=
  if hasMetricsAuth cfgU cfgP then .withAuth cfgU cfgP else .plain

example :
    checkAuth (some (pyStr "u")) (some (pyStr "p"))
      (some (basicAuthHeader (pyStr "u") (pyStr "p"))) = true := by decide
example :
    checkAuth (some (pyStr "u")) (some (pyStr "p"))
      (some (basicAuthHeader (pyStr "u") (pyStr "x"))) = false := by decide
example : checkAuth (some (pyStr "u")) (some (pyStr "p")) none = false := by decide
example : b64Decode (b64Encode [104, 105]) = some [104, 105] := by decide

/-- Alphabet lookup inverts alphabet indexing. -/
theorem b64Index_b64Char {n : Nat} (h : n < 64) : b64Index (b64Char n) = some n := by
  have hall : ∀ m : Fin 64, b64Index (b64Char m.1) = some m.1 := by decide
  exact hall ⟨n, h⟩

/-- No alphabet character is the padding character. -/
theorem b64Char_ne_pad {n : Nat} (h : n < 64) : b64Char n ≠ 61 := by
  have hall : ∀ m : Fin 64, b64Char m.1 ≠ 61 := by decide
  exact hall ⟨n, h⟩

/-- Base64 decoding inverts encoding on byte lists. -/
theorem b64_roundtrip : ∀ bs : List Nat, (∀ x ∈ bs, x < 256) →
    b64Decode (b64Encode bs) = some bs
  | [], _ => rfl
  | [a], h => by
    have ha : a < 256 := h a (by simp)
    have h1 : a / 4 < 64 := by omega
    have h2 : a % 4 * 16 < 64 := by omega
    simp [b64Encode, b64Decode, b64Index_b64Char h1, b64Index_b64Char h2]
    omega
  | [a, b], h => by
    have ha : a < 256 := h a (by simp)
    have hb : b < 256 := h b (by simp)
    have h1 : a / 4 < 64 := by omega
    have h2 : a % 4 * 16 + b / 16 < 64 := by omega
    have h3 : b % 16 * 4 < 64 := by omega
    simp [b64Encode, b64Decode, b64Index_b64Char h1, b64Index_b64Char h2,
          b64Index_b64Char h3, b64Char_ne_pad h3]
    omega
  | a :: b :: c :: rest, h => by
    have ha : a < 256 := h a (by simp)
    have hb : b < 256 := h b (by simp)
    have hc : c < 256 := h c (by simp)
    have ih := b64_roundtrip rest (fun x hx => h x (by simp [hx]))
    have h1 : a / 4 < 64 := by omega
    have h2 : a % 4 * 16 + b / 16 < 64 := by omega
    have h3 : b % 16 * 4 + c / 64 < 64 := by omega
    have h4 : c % 64 < 64 := by omega
    simp [b64Encode, b64Decode, b64Index_b64Char h1, b64Index_b64Char h2,
          b64Index_b64Char h3, b64Index_b64Char h4, b64Char_ne_pad h3,
          b64Char_ne_pad h4, ih]
    refine ⟨by omega, by omega, by omega⟩

/-- UTF-8 encoding of an ASCII string is the identity on codepoints. -/
theorem utf8Encode_ascii (s : PyStr) (h : ∀ c ∈ s, c < 128) : utf8Encode s = s := by
  induction s with
  | nil => rfl
  | cons a t ih =>
    have ha : a < 128 := h a (List.mem_cons_self a t)
    have ih' := ih (fun c hc => h c (List.mem_cons_of_mem a hc))
    simp [utf8Encode, utf8EncodeCp, ha] at ih' ⊢
    exact ih'

/-- Unfolding step of the strict decoder on an ASCII lead byte. -/
theorem utf8DecodeStrict_cons (a : Nat) (t : List Nat) (ha : a < 128) :
    utf8DecodeStrict (a :: t) = (utf8DecodeStrict t).map (a :: ·) := by
  delta utf8DecodeStrict
  dsimp only []
  rw [if_pos ha]

/-- Strict UTF-8 decoding of ASCII bytes succeeds with the same codepoints. -/
theorem utf8DecodeStrict_ascii (s : List Nat) (h : ∀ c ∈ s, c < 128) :
    utf8DecodeStrict s = some s := by
  induction s with
  | nil => rfl
  | cons a t ih =>
    have ha : a < 128 := h a (List.mem_cons_self a t)
    have ih' := ih (fun c hc => h c (List.mem_cons_of_mem a hc))
    rw [utf8DecodeStrict_cons a t ha, ih']
    rfl

/-- Splitting at the first colon recovers the two halves when the first
half is colon-free. -/
theorem splitOnceColon_append (u p : PyStr) (h : (58 : Nat) ∉ u) :
    splitOnceColon (u ++ 58 :: p) = some (u, p) := by
  induction u with
  | nil => simp [splitOnceColon]
  | cons a t ih =>
    have ha : a ≠ 58 := fun h0 => h (h0 ▸ List.mem_cons_self a t)
    rw [List.cons_append, splitOnceColon]
    simp [ha, ih (fun hm => h (List.mem_cons_of_mem a hm))]

/-- A string starts with itself followed by anything. -/
theorem pyStartsWith_append (pre rest : PyStr) : pyStartsWith pre (pre ++ rest) = true := by
  induction pre with
  | nil => rfl
  | cons a t ih => simp [pyStartsWith, ih]

/-- `_check_auth` on a well-formed Basic header: with both credentials
configured (non-empty, ASCII, colon-free username), the check succeeds
exactly when the supplied pair equals the configured pair. -/
theorem checkAuth_basic (u p u' p' : PyStr)
    (hu : ∀ c ∈ u, c < 128) (hp : ∀ c ∈ p, c < 128)
    (hu' : ∀ c ∈ u', c < 128) (hp' : ∀ c ∈ p', c < 128)
    (hcolon : (58 : Nat) ∉ u')
    (hune : u ≠ []) (hpne : p ≠ []) :
    checkAuth (some u) (some p) (some (basicAuthHeader u' p')) =
      ((u' == u) && (p' == p)) := by
  have hu0 : u.isEmpty = false := by
    cases u with
    | nil => exact absurd rfl hune
    | cons a t => rfl
  have hp0 : p.isEmpty = false := by
    cases p with
    | nil => exact absurd rfl hpne
    | cons a t => rfl
  have hascii : ∀ c ∈ u' ++ 58 :: p', c < 128 := by
    intro c hcmem
    rcases List.mem_append.mp hcmem with hl | hr
    · exact hu' c hl
    · rcases List.mem_cons.mp hr with h58 | hpp
      · omega
      · exact hp' c hpp
  have henc : utf8Encode (u' ++ 58 :: p') = u' ++ 58 :: p' :=
    utf8Encode_ascii _ hascii
  have hbytes : ∀ x ∈ u' ++ 58 :: p', x < 256 := fun x hx => by
    have := hascii x hx
    omega
  have hdrop :
      (basicAuthHeader u' p').drop 6 = b64Encode (u' ++ 58 :: p') := by
    rw [basicAuthHeader, henc,
        show (6 : Nat) = (pyStr "Basic ").length from by decide, List.drop_left]
  have hstart : pyStartsWith (pyStr "Basic ") (basicAuthHeader u' p') = true := by
    rw [basicAuthHeader]
    exact pyStartsWith_append _ _
  have hcdu : compareDigest u' u = some (u' == u) := by
    simp [compareDigest]
    exact ⟨hu', hu⟩
  have hcdp : compareDigest p' p = some (p' == p) := by
    simp [compareDigest]
    exact ⟨hp', hp⟩
  rw [checkAuth]
  simp only [Option.getD_some, hu0, hp0, Bool.or_self, Bool.or_false, if_neg,
             Bool.false_eq_true, not_false_eq_true, hstart, if_pos, hdrop,
             b64_roundtrip _ hbytes, utf8DecodeStrict_ascii _ hascii,
             splitOnceColon_append u' p' hcolon, hcdu, hcdp]

/-- C6: with a credential pair configured (non-empty ASCII username and
password, colon-free username), a GET of the metrics path with no
`Authorization` header, or with a well-formed Basic header carrying a
non-matching colon-free credential pair, receives the 401
authentication-required response with its realm indicator; correct Basic
credentials receive 200 with the current exposition payload; with no
credential configured every request passes through unauthenticated. -/
theorem c6_metrics_auth (u p payload : PyStr)
    (hu : ∀ c ∈ u, c < 128) (hp : ∀ c ∈ p, c < 128)
    (hcu : (58 : Nat) ∉ u) (hune : u ≠ []) (hpne : p ≠ []) :
    metricsDoGet (some u) (some p) payload (pyStr "/metrics") none = authRequired ∧
    (∀ u' p', (∀ c ∈ u', c < 128) → (∀ c ∈ p', c < 128) → (58 : Nat) ∉ u' →
      (u' ≠ u ∨ p' ≠ p) →
      metricsDoGet (some u) (some p) payload (pyStr "/metrics")
        (some (basicAuthHeader u' p')) = authRequired) ∧
    metricsDoGet (some u) (some p) payload (pyStr "/metrics")
        (some (basicAuthHeader u p)) =
      { status := 200, wwwAuthenticate := none, body := payload } ∧
    (∀ hdr, metricsDoGet none none payload (pyStr "/metrics") hdr =
      { status := 200, wwwAuthenticate := none, body := payload }) := by
  have hu0 : u.isEmpty = false := by
    cases u with
    | nil => exact absurd rfl hune
    | cons a t => rfl
  have hp0 : p.isEmpty = false := by
    cases p with
    | nil => exact absurd rfl hpne
    | cons a t => rfl
  refine ⟨?_, ?_, ?_, ?_⟩
  · have hnone : checkAuth (some u) (some p) none = false := by
      simp [checkAuth, hu0, hp0]
    simp [metricsDoGet, hnone]
  · intro u' p' h1 h2 h3 hne
    have hc := checkAuth_basic u p u' p' hu hp h1 h2 h3 hune hpne
    have hfalse : ((u' == u) && (p' == p)) = false := by
      rcases hne with hne | hne
      · have : (u' == u) = false := beq_eq_false_iff_ne.mpr hne
        simp [this]
      · have : (p' == p) = false := beq_eq_false_iff_ne.mpr hne
        simp [this]
    simp [metricsDoGet, hc, hfalse]
  · have hc := checkAuth_basic u p u p hu hp hu hp hcu hune hpne
    simp [metricsDoGet, hc]
  · intro hdr
    simp [metricsDoGet, checkAuth]

/-- Witness for C6 with username `u`, password `p`, wrong pair `x`/`y`. -/
theorem c6_metrics_auth_witness :
    metricsDoGet (some (pyStr "u")) (some (pyStr "p")) (pyStr "PAYLOAD")
        (pyStr "/metrics") none = authRequired ∧
    metricsDoGet (some (pyStr "u")) (some (pyStr "p")) (pyStr "PAYLOAD")
        (pyStr "/metrics") (some (basicAuthHeader (pyStr "x") (pyStr "y"))) =
      authRequired ∧
    metricsDoGet (some (pyStr "u")) (some (pyStr "p")) (pyStr "PAYLOAD")
        (pyStr "/metrics") (some (basicAuthHeader (pyStr "u") (pyStr "p"))) =
      { status := 200, wwwAuthenticate := none, body := pyStr "PAYLOAD" } := by
  have h := c6_metrics_auth (pyStr "u") (pyStr "p") (pyStr "PAYLOAD")
    (by decide) (by decide) (by decide) (by decide) (by decide)
  exact ⟨h.1, h.2.1 (pyStr "x") (pyStr "y") (by decide) (by decide) (by decide)
    (Or.inl (by decide)), h.2.2.1⟩

/-- Is an optional credential Python-truthy (present and non-empty)? -/
def isConfigured (o : Option PyStr) : Bool := !(o.getD []).isEmpty

/-- C10: authentication is considered configured only when both username
and password are truthy. When exactly one of the two is configured,
`has_metrics_auth` is false, `run` starts the plain unauthenticated
metrics server, and even the credential check itself passes every request
(including one with no header) unconditionally. -/
theorem c10_auth_requires_both (cfgU cfgP : Option PyStr)
    (h : isConfigured cfgU ≠ isConfigured cfgP) :
    hasMetricsAuth cfgU cfgP = false ∧
    chooseMetricsServer cfgU cfgP = .plain ∧
    (∀ hdr, checkAuth cfgU cfgP hdr = true) := by
  have hfalse : hasMetricsAuth cfgU cfgP = false := by
    rw [hasMetricsAuth]
    rcases hU : (cfgU.getD []).isEmpty <;> rcases hP : (cfgP.getD []).isEmpty <;>
      simp_all [isConfigured]
  refine ⟨hfalse, by simp [chooseMetricsServer, hfalse], ?_⟩
  intro hdr
  rw [checkAuth.eq_def]
  rcases hU : (cfgU.getD []).isEmpty <;> rcases hP : (cfgP.getD []).isEmpty <;>
    simp_all [isConfigured, hasMetricsAuth]

/-- Witness for C10: username configured, password absent. -/
theorem c10_auth_requires_both_witness :
    hasMetricsAuth (some (pyStr "u")) none = false ∧
    chooseMetricsServer (some (pyStr "u")) none = .plain ∧
    checkAuth (some (pyStr "u")) none none = true ∧
    checkAuth (some (pyStr "u")) none (some (pyStr "Basic junk")) = true := by
  have h := c10_auth_requires_both (some (pyStr "u")) none (by decide)
  exact ⟨h.1, h.2.1, h.2.2 none, h.2.2 (some (pyStr "Basic junk"))⟩
